import Mathlib

/-!
Verification development for FsMeshQC, a FreeSurfer mesh quality-control tool.

The Python source is shallowly embedded as follows:
- numpy double arrays become per-element functions over `ℝ` (where `sqrt`,
  `arccos` or `π` are involved) or over `ℚ` (where the arithmetic is
  rational), the vectorized whole-array operations becoming `List.map`;
- values that the code may set to `np.inf` (and, hypothetically, `nan`) live
  in the sum type `FpVal`, so that the infinity sentinel is explicit;
- the guarded divisions (`np.where`, boolean masks) become `if`/`match`;
- `pandas.sort_values` / the sort inside `np.median` and `np.percentile`
  become `List.insertionSort` with the corresponding key order.
-/

namespace FsMeshQC

/-- An IEEE-style value as produced by the numpy code paths modelled here: a
finite number, positive infinity (`np.inf`), or `nan`. -/
inductive FpVal (α : Type) where
  | num (x : α)
  | posInf
  | nan
  deriving DecidableEq

/-- `np.clip(x, lo, hi)`, i.e. `min(hi, max(x, lo))`. -/
def clip {α : Type} [LinearOrder α] (x lo hi : α) : α :=
  min hi (max x lo)

/-- The bad-triangle mask of `main.py` (line 176) and `saveResults.py`
(line 79): `(shape_quality < bad_sq_thresh) | (min_angle < bad_angle_thresh)`. -/
def isBad {α : Type} [LinearOrder α] (sq minAngle sqThresh angleThresh : α) : Bool :=
  decide (sq < sqThresh) || decide (minAngle < angleThresh)

/-- `triangle_inradius` from `geometric_calculation.py`:
`s = 0.5*(a+b+c)`, `r = np.where(s > 0, area/s, 0.0)`. -/
def triangle_inradius {α : Type} [LinearOrderedField α] (area a b c : α) : α :=
  let s := (1 / 2 : α) * (a + b + c)
  if 0 < s then area / s else 0

/-- `triangle_circumradius` from `geometric_calculation.py`:
`R[area > 1e-20] = a*b*c/(4*area)`, `R[~(area > 1e-20)] = np.inf`. -/
def triangle_circumradius {α : Type} [LinearOrderedField α] (area a b c : α) :
    FpVal α :=
  if (1e-20 : α) < area then .num ((a * b * c) / (4 * area)) else .posInf

/-- C1: a triangle is classified bad iff its shape quality is strictly below
the shape-quality threshold OR its minimal angle is strictly below the angle
threshold (either defect alone suffices); in particular shape quality 0.15 with
minimal angle 12 under the default thresholds (0.2, 10) is bad. -/
theorem C1_bad_classification :
    ∀ sq minAngle sqThresh angleThresh : ℚ,
      (isBad sq minAngle sqThresh angleThresh = true ↔
        sq < sqThresh ∨ minAngle < angleThresh) ∧
      isBad (0.15 : ℚ) 12 0.2 10 = true := by
  intro sq minAngle sqThresh angleThresh
  constructor
  · simp [isBad]
  · simp only [isBad, Bool.or_eq_true, decide_eq_true_eq]
    left
    norm_num

/-- C3: the circumradius is `a*b*c/(4*area)` whenever `area > 1e-20`, and the
explicit `+∞` sentinel (never `nan`) whenever `area ≤ 1e-20`. -/
theorem C3_circumradius_guard :
    ∀ area a b c : ℚ,
      ((1e-20 : ℚ) < area →
        triangle_circumradius area a b c = .num (a * b * c / (4 * area))) ∧
      (area ≤ (1e-20 : ℚ) → triangle_circumradius area a b c = .posInf) ∧
      triangle_circumradius area a b c ≠ .nan := by
  intro area a b c
  refine ⟨fun h => ?_, fun h => ?_, ?_⟩
  · simp [triangle_circumradius, h]
  · simp [triangle_circumradius, not_lt.mpr h]
  · unfold triangle_circumradius
    split <;> simp

theorem C3_circumradius_guard_witness :
    triangle_circumradius (1 : ℚ) 1 1 1 = .num (1 * 1 * 1 / (4 * 1)) ∧
    triangle_circumradius (0 : ℚ) 1 1 1 = .posInf :=
  ⟨(C3_circumradius_guard 1 1 1 1).1 (by norm_num),
   (C3_circumradius_guard 0 1 1 1).2.1 (by norm_num)⟩

/-- A point of the vertex array `V` (one row, 3 doubles). -/
abbrev Vec3 := ℝ × ℝ × ℝ

/-- Componentwise subtraction of numpy 3-vectors. -/
def sub3 (u v : Vec3) : Vec3 :=
  (u.1 - v.1, u.2.1 - v.2.1, u.2.2 - v.2.2)

/-- `np.cross` for 3-vectors. -/
def cross3 (u v : Vec3) : Vec3 :=
  (u.2.1 * v.2.2 - u.2.2 * v.2.1,
   u.2.2 * v.1 - u.1 * v.2.2,
   u.1 * v.2.1 - u.2.1 * v.1)

/-- `np.linalg.norm` of a 3-vector. -/
noncomputable def norm3 (u : Vec3) : ℝ :=
  Real.sqrt (u.1 ^ 2 + u.2.1 ^ 2 + u.2.2 ^ 2)

/-- `triangle_edges` from `geometric_calculation.py`, restricted to one face:
`e0 = v2 - v1`, `e1 = v0 - v2`, `e2 = v1 - v0`, `a = ‖e0‖`, `b = ‖e1‖`,
`c = ‖e2‖`, returned as `(e0, e1, e2, a, b, c)`. -/
noncomputable def triangle_edges (v0 v1 v2 : Vec3) :
    Vec3 × Vec3 × Vec3 × ℝ × ℝ × ℝ :=
  let e0 := sub3 v2 v1
  let e1 := sub3 v0 v2
  let e2 := sub3 v1 v0
  (e0, e1, e2, norm3 e0, norm3 e1, norm3 e2)

/-- `triangle_area_from_edges` from `geometric_calculation.py`:
`area = 0.5 * ‖e2 × e0‖`. -/
noncomputable def triangle_area_from_edges (e2 e0 : Vec3) : ℝ :=
  0.5 * norm3 (cross3 e2 e0)

/-- `safe_acos` from `triangle_angles`: clip the cosine into `[-1, 1]`, then
`np.arccos`. -/
noncomputable def safe_acos (x : ℝ) : ℝ :=
  Real.arccos (clip x (-1) 1)

/-- `np.degrees`: multiply by `180/π`. -/
noncomputable def degrees (x : ℝ) : ℝ :=
  x * (180 / Real.pi)

/-- `triangle_angles` from `geometric_calculation.py`: law of cosines with
`1e-15` added to each denominator, guarded inverse cosine, then degrees. -/
noncomputable def triangle_angles (a b c : ℝ) : ℝ × ℝ × ℝ :=
  let cosA := (b * b + c * c - a * a) / (2 * b * c + 1e-15)
  let cosB := (c * c + a * a - b * b) / (2 * c * a + 1e-15)
  let cosC := (a * a + b * b - c * c) / (2 * a * b + 1e-15)
  (degrees (safe_acos cosA), degrees (safe_acos cosB), degrees (safe_acos cosC))

/-- The spec's clamp of a cosine into `[-1, 1]`, written as explicit case
analysis (to be compared with the source's `np.clip`). -/
noncomputable def specClamp (x : ℝ) : ℝ :=
  if x < -1 then -1 else if 1 < x then 1 else x

/-- The angle computation exactly as §4.1 of the spec words it:
`cos(A) = (b²+c²−a²)/(2bc + ε)` with `ε = 1e-15`, cyclically for `B`, `C`,
cosine clamped into `[-1, 1]` before the inverse cosine, result converted to
degrees. -/
noncomputable def spec_angles (a b c : ℝ) : ℝ × ℝ × ℝ :=
  (Real.arccos (specClamp ((b ^ 2 + c ^ 2 - a ^ 2) / (2 * b * c + 1e-15))) * 180 / Real.pi,
   Real.arccos (specClamp ((c ^ 2 + a ^ 2 - b ^ 2) / (2 * c * a + 1e-15))) * 180 / Real.pi,
   Real.arccos (specClamp ((a ^ 2 + b ^ 2 - c ^ 2) / (2 * a * b + 1e-15))) * 180 / Real.pi)

theorem clip_neg_one_one (x : ℝ) :
    clip x (-1) 1 = if x < -1 then -1 else if 1 < x then 1 else x := by
  unfold clip
  split_ifs with h1 h2
  · rw [max_eq_right h1.le]
    exact min_eq_right (by norm_num)
  · rw [max_eq_left (by linarith), min_eq_left h2.le]
  · rw [max_eq_left (by linarith), min_eq_right (by linarith)]

theorem degrees_safe_acos_eq (p q r : ℝ) :
    degrees (safe_acos ((q * q + r * r - p * p) / (2 * q * r + 1e-15))) =
      Real.arccos (specClamp ((q ^ 2 + r ^ 2 - p ^ 2) / (2 * q * r + 1e-15))) * 180 /
        Real.pi := by
  rw [show q * q + r * r - p * p = q ^ 2 + r ^ 2 - p ^ 2 by ring]
  unfold safe_acos degrees specClamp
  rw [clip_neg_one_one, mul_div_assoc]

/-- C2: the interior angles are computed by the law of cosines with the
`1e-15` denominator guard, the cosine clipped into `[-1, 1]` before the
inverse cosine, and the result converted to degrees — i.e. the source's
`triangle_angles` agrees with the spec's formula everywhere. -/
theorem C2_angles_law_of_cosines :
    ∀ a b c : ℝ, triangle_angles a b c = spec_angles a b c := by
  intro a b c
  simp only [triangle_angles, spec_angles, Prod.mk.injEq]
  exact ⟨degrees_safe_acos_eq a b c, degrees_safe_acos_eq b c a,
    degrees_safe_acos_eq c a b⟩

/-- Triangle area exactly as the source composes it: the edges come from
`triangle_edges` and the area is `triangle_area_from_edges e2 e0`. -/
noncomputable def triArea (v0 v1 v2 : Vec3) : ℝ :=
  let E := triangle_edges v0 v1 v2
  triangle_area_from_edges E.2.2.1 E.1

/-- C6: the area `0.5·‖e2×e0‖` under the fixed edge convention is invariant
in magnitude under every relabeling of the triangle's three vertices. -/
theorem C6_area_permutation_invariant :
    ∀ v0 v1 v2 : Vec3,
      triArea v0 v1 v2 = triArea v1 v2 v0 ∧
      triArea v0 v1 v2 = triArea v2 v0 v1 ∧
      triArea v0 v1 v2 = triArea v0 v2 v1 ∧
      triArea v0 v1 v2 = triArea v1 v0 v2 ∧
      triArea v0 v1 v2 = triArea v2 v1 v0 := by
  intro v0 v1 v2
  obtain ⟨x0, y0, z0⟩ := v0
  obtain ⟨x1, y1, z1⟩ := v1
  obtain ⟨x2, y2, z2⟩ := v2
  refine ⟨?_, ?_, ?_, ?_, ?_⟩ <;>
    · simp only [triArea, triangle_edges, triangle_area_from_edges, sub3,
        cross3, norm3]
      congr 1
      congr 1
      ring

/-- One entry (per face) of the dictionary returned by
`compute_mesh_quality` in `meshQuality.py`. -/
structure QualityRec where
  area : ℝ
  edge_a : ℝ
  edge_b : ℝ
  edge_c : ℝ
  min_edge : ℝ
  max_edge : ℝ
  angle_A : ℝ
  angle_B : ℝ
  angle_C : ℝ
  min_angle : ℝ
  max_angle : ℝ
  shape_quality : ℝ
  radius_ratio : ℝ
  aspect_proxy : FpVal ℝ

/-- `compute_mesh_quality` from `meshQuality.py`, restricted to one face
`(v0, v1, v2)`: edges from `triangle_edges`, area from `e2 × e0`, angles from
`triangle_angles`; `shape_quality = clip(4√3·area/(a²+b²+c²), 0, 1)` with the
zero-denominator guard; `radius_ratio = clip(2·r_in/R_circ, 0, 1)` computed
only where `R_circ` is finite and positive; `aspect_proxy = 1/shape_quality`
where positive, else `np.inf`; min/max over the edge and angle triples. -/
noncomputable def triQuality (v0 v1 v2 : Vec3) : QualityRec :=
  let E := triangle_edges v0 v1 v2
  let e0 := E.1
  let e2 := E.2.2.1
  let a := E.2.2.2.1
  let b := E.2.2.2.2.1
  let c := E.2.2.2.2.2
  let area := triangle_area_from_edges e2 e0
  let angles := triangle_angles a b c
  let A := angles.1
  let B := angles.2.1
  let C := angles.2.2
  let denom := a * a + b * b + c * c
  let sq := clip (if 0 < denom then 4 * Real.sqrt 3 * area / denom else 0) 0 1
  let r_in := triangle_inradius area a b c
  let R_circ := triangle_circumradius area a b c
  let rr := clip
    (match R_circ with
     | .num R => if 0 < R then 2 * r_in / R else 0
     | _ => 0) 0 1
  { area := area
    edge_a := a
    edge_b := b
    edge_c := c
    min_edge := min a (min b c)
    max_edge := max a (max b c)
    angle_A := A
    angle_B := B
    angle_C := C
    min_angle := min A (min B C)
    max_angle := max A (max B C)
    shape_quality := sq
    radius_ratio := rr
    aspect_proxy := if 0 < sq then .num (1 / sq) else .posInf }

/-- `compute_mesh_quality` over the whole face array: numpy's vectorized pass
becomes a map over the face list; `V[F[:,k]]` becomes a (total) list lookup. -/
noncomputable def compute_mesh_quality (V : List Vec3) (F : List (ℕ × ℕ × ℕ)) :
    List QualityRec :=
  F.map fun f =>
    triQuality (V.getD f.1 (0, 0, 0)) (V.getD f.2.1 (0, 0, 0))
      (V.getD f.2.2 (0, 0, 0))

theorem clip_zero_one_bounds (x : ℝ) : 0 ≤ clip x 0 1 ∧ clip x 0 1 ≤ 1 :=
  ⟨le_min zero_le_one (le_max_right x 0), min_le_left 1 (max x 0)⟩

theorem aspect_of_clip (y : ℝ) :
    (if 0 < clip y 0 1 then FpVal.num (1 / clip y 0 1) else FpVal.posInf) =
        FpVal.posInf ∨
      ∃ x : ℝ,
        (if 0 < clip y 0 1 then FpVal.num (1 / clip y 0 1) else FpVal.posInf) =
            FpVal.num x ∧ 1 ≤ x := by
  by_cases h : 0 < clip y 0 1
  · right
    refine ⟨1 / clip y 0 1, by simp [h], ?_⟩
    exact one_le_one_div h (clip_zero_one_bounds y).2
  · left
    simp [h]

theorem triQuality_ranges (v0 v1 v2 : Vec3) :
    (0 ≤ (triQuality v0 v1 v2).shape_quality ∧
      (triQuality v0 v1 v2).shape_quality ≤ 1) ∧
    (0 ≤ (triQuality v0 v1 v2).radius_ratio ∧
      (triQuality v0 v1 v2).radius_ratio ≤ 1) ∧
    ((triQuality v0 v1 v2).aspect_proxy = .posInf ∨
      ∃ x : ℝ, (triQuality v0 v1 v2).aspect_proxy = .num x ∧ 1 ≤ x) := by
  simp only [triQuality]
  exact ⟨clip_zero_one_bounds _, clip_zero_one_bounds _, aspect_of_clip _⟩

/-- C4: for every input mesh, every `shape_quality` and every `radius_ratio`
lies in `[0, 1]`, and every `aspect_proxy` is either a finite value `≥ 1` or
exactly `+∞`. -/
theorem C4_quality_ranges (V : List Vec3) (F : List (ℕ × ℕ × ℕ)) :
    ∀ r ∈ compute_mesh_quality V F,
      (0 ≤ r.shape_quality ∧ r.shape_quality ≤ 1) ∧
      (0 ≤ r.radius_ratio ∧ r.radius_ratio ≤ 1) ∧
      (r.aspect_proxy = .posInf ∨ ∃ x : ℝ, r.aspect_proxy = .num x ∧ 1 ≤ x) := by
  intro r hr
  obtain ⟨f, -, rfl⟩ := List.mem_map.mp hr
  exact triQuality_ranges _ _ _

theorem C4_quality_ranges_witness :
    (0 ≤ (triQuality (0, 0, 0) (0, 0, 0) (0, 0, 0)).shape_quality ∧
      (triQuality (0, 0, 0) (0, 0, 0) (0, 0, 0)).shape_quality ≤ 1) ∧
    (0 ≤ (triQuality (0, 0, 0) (0, 0, 0) (0, 0, 0)).radius_ratio ∧
      (triQuality (0, 0, 0) (0, 0, 0) (0, 0, 0)).radius_ratio ≤ 1) ∧
    ((triQuality (0, 0, 0) (0, 0, 0) (0, 0, 0)).aspect_proxy = .posInf ∨
      ∃ x : ℝ,
        (triQuality (0, 0, 0) (0, 0, 0) (0, 0, 0)).aspect_proxy = .num x ∧ 1 ≤ x) :=
  C4_quality_ranges [(0, 0, 0)] [(0, 0, 0)] _
    (by simp [compute_mesh_quality])

theorem sub3_self (v : Vec3) : sub3 v v = (0, 0, 0) := by
  simp [sub3]

theorem norm3_zero : norm3 (0 : Vec3) = 0 := by
  norm_num [norm3, Real.sqrt_zero]

theorem triangle_edges_diag (v : Vec3) :
    triangle_edges v v v = (0, 0, 0, 0, 0, 0) := by
  simp [triangle_edges, sub3_self, norm3_zero]

theorem area_from_zero_edges : triangle_area_from_edges (0 : Vec3) 0 = 0 := by
  norm_num [triangle_area_from_edges, cross3, norm3, Real.sqrt_zero]

theorem clip_zero_zero_one : clip (0 : ℝ) 0 1 = 0 := by
  unfold clip
  rw [max_self, min_eq_right zero_le_one]

theorem safe_acos_zero : safe_acos 0 = Real.pi / 2 := by
  unfold safe_acos
  have h : clip (0 : ℝ) (-1) 1 = 0 := by
    unfold clip
    rw [max_eq_left (by norm_num), min_eq_right (by norm_num)]
  rw [h, Real.arccos_zero]

theorem degrees_half_pi : degrees (Real.pi / 2) = 90 := by
  unfold degrees
  field_simp
  ring

theorem triangle_angles_diag : triangle_angles 0 0 0 = (90, 90, 90) := by
  have h0 : ((0 : ℝ) * 0 + 0 * 0 - 0 * 0) / (2 * 0 * 0 + 1e-15) = 0 := by norm_num
  simp only [triangle_angles, h0, safe_acos_zero, degrees_half_pi]

theorem triQuality_diag (v : Vec3) :
    triQuality v v v =
      { area := 0
        edge_a := 0, edge_b := 0, edge_c := 0
        min_edge := 0, max_edge := 0
        angle_A := 90, angle_B := 90, angle_C := 90
        min_angle := 90, max_angle := 90
        shape_quality := 0
        radius_ratio := 0
        aspect_proxy := .posInf } := by
  norm_num [triQuality, triangle_edges_diag, area_from_zero_edges,
    triangle_angles_diag, clip_zero_zero_one, triangle_inradius,
    triangle_circumradius]

/-- C10: a triangle whose three vertices coincide gets three 90-degree angles
(angle sum 270), hence min_angle = 90; its shape quality is 0, so under the
default thresholds (0.2, 10) it is flagged bad through shape quality alone and
never through the min-angle threshold. -/
theorem C10_coincident_vertices :
    ∀ v : Vec3,
      (triQuality v v v).angle_A = 90 ∧
      (triQuality v v v).angle_B = 90 ∧
      (triQuality v v v).angle_C = 90 ∧
      (triQuality v v v).angle_A + (triQuality v v v).angle_B +
          (triQuality v v v).angle_C = 270 ∧
      (triQuality v v v).min_angle = 90 ∧
      (triQuality v v v).shape_quality = 0 ∧
      isBad (triQuality v v v).shape_quality (triQuality v v v).min_angle
          (0.2 : ℝ) 10 = true ∧
      ¬ (triQuality v v v).min_angle < 10 ∧
      (triQuality v v v).shape_quality < 0.2 := by
  intro v
  rw [triQuality_diag v]
  refine ⟨rfl, rfl, rfl, by norm_num, rfl, rfl, ?_, by norm_num, by norm_num⟩
  simp only [isBad, Bool.or_eq_true, decide_eq_true_eq]
  left
  norm_num

/-- `np.isfinite` on an `FpVal`. -/
def isFinVal : FpVal ℚ → Bool
  | .num _ => true
  | _ => false

/-- Extract the finite value of an `FpVal`, if any; `x[np.isfinite(x)]`
becomes `List.filterMap toNum`. -/
def toNum : FpVal ℚ → Option ℚ
  | .num x => some x
  | _ => none

/-- `np.percentile(xs, q)` with the default linear interpolation: sort, take
the fractional index `q/100·(n-1)`, interpolate between its floor and ceil. -/
def percentile (xs : List ℚ) (q : ℚ) : ℚ :=
  let s := List.insertionSort (· ≤ ·) xs
  let pos : ℚ := q / 100 * ((s.length : ℚ) - 1)
  let lo := s.getD (⌊pos⌋).toNat 0
  let hi := s.getD (⌈pos⌉).toNat 0
  lo + (hi - lo) * (pos - (⌊pos⌋ : ℚ))

/-- `np.median`: middle element of the sorted list (odd length) or the mean
of the two middle elements (even length). -/
def npMedian (xs : List ℚ) : ℚ :=
  let s := List.insertionSort (· ≤ ·) xs
  if s.length % 2 = 1 then s.getD (s.length / 2) 0
  else (s.getD (s.length / 2 - 1) 0 + s.getD (s.length / 2) 0) / 2

/-- `np.min` of a non-empty array (0 as a junk value on the empty list, which
`stats` never reaches). -/
def npMin : List ℚ → ℚ
  | [] => 0
  | x :: rest => rest.foldl min x

/-- `np.max` of a non-empty array. -/
def npMax : List ℚ → ℚ
  | [] => 0
  | x :: rest => rest.foldl max x

/-- The record emitted by `stats` inside `summarize_quality`: either the
count-zero-only record `{"n": 0}`, or the full record of statistics. -/
inductive StatsRec where
  | countZero
  | full (n : ℕ) (mean median p05 p25 p75 p95 mn mx : ℚ)
  deriving DecidableEq

/-- `stats` from `summarize_quality` in `meshQuality.py`: keep the finite
entries; if none remain return `{"n": 0}`, else n, mean, median, the
5/25/75/95 percentiles, min and max of the finite values. -/
def stats (x : List (FpVal ℚ)) : StatsRec :=
  let xs := x.filterMap toNum
  if xs.length = 0 then .countZero
  else
    .full xs.length (xs.sum / (xs.length : ℚ)) (npMedian xs)
      (percentile xs 5) (percentile xs 25) (percentile xs 75) (percentile xs 95)
      (npMin xs) (npMax xs)

def StatsRec.count : StatsRec → ℕ
  | .countZero => 0
  | .full n _ _ _ _ _ _ _ _ => n

def StatsRec.medianVal : StatsRec → Option ℚ
  | .countZero => none
  | .full _ _ m _ _ _ _ _ _ => some m

def StatsRec.minVal : StatsRec → Option ℚ
  | .countZero => none
  | .full _ _ _ _ _ _ _ mn _ => some mn

def StatsRec.maxVal : StatsRec → Option ℚ
  | .countZero => none
  | .full _ _ _ _ _ _ _ _ mx => some mx

theorem filterMap_toNum_filter (x : List (FpVal ℚ)) :
    (x.filter isFinVal).filterMap toNum = x.filterMap toNum := by
  induction x with
  | nil => rfl
  | cons v rest ih =>
      cases v <;> simp [isFinVal, toNum, ih]

/-- C5: the summary statistics are computed only over the finite values of an
array (so inserting or dropping non-finite entries changes nothing); with no
finite values the emitted record is the count-zero-only record; and on
`[0.1, 0.3, 0.5, NaN]` the count is 3, the median 0.3, the min 0.1 and the
max 0.5. -/
theorem C5_stats_finite_only :
    (∀ x : List (FpVal ℚ), stats x = stats (x.filter isFinVal)) ∧
    (∀ x : List (FpVal ℚ), x.filterMap toNum = [] → stats x = .countZero) ∧
    (stats [.num 0.1, .num 0.3, .num 0.5, .nan]).count = 3 ∧
    (stats [.num 0.1, .num 0.3, .num 0.5, .nan]).medianVal = some 0.3 ∧
    (stats [.num 0.1, .num 0.3, .num 0.5, .nan]).minVal = some 0.1 ∧
    (stats [.num 0.1, .num 0.3, .num 0.5, .nan]).maxVal = some 0.5 := by
  have hfm : List.filterMap toNum [.num 0.1, .num 0.3, .num 0.5, .nan] =
      [(0.1 : ℚ), 0.3, 0.5] := by
    simp [toNum]
  have hsort : List.insertionSort (· ≤ ·) [(0.1 : ℚ), 0.3, 0.5] =
      [(0.1 : ℚ), 0.3, 0.5] := by
    simp [List.insertionSort, List.orderedInsert]
    norm_num
  refine ⟨fun x => ?_, fun x h => ?_, ?_, ?_, ?_, ?_⟩
  · unfold stats
    rw [filterMap_toNum_filter]
  · simp [stats, h]
  · simp [stats, hfm, StatsRec.count]
  · have hmed : npMedian [(0.1 : ℚ), 0.3, 0.5] = 0.3 := by
      simp only [npMedian]
      rw [hsort]
      norm_num
    simp [stats, hfm, StatsRec.medianVal, hmed]
  · simp [stats, hfm, StatsRec.minVal, npMin]
    norm_num [min_def]
  · simp [stats, hfm, StatsRec.maxVal, npMax]
    norm_num [max_def]

theorem C5_stats_finite_only_witness : stats [FpVal.posInf] = .countZero :=
  C5_stats_finite_only.2.1 [FpVal.posInf] rfl

/-- One row of the per-face table built in `save_mesh_quality` (the columns
that drive flagging and sorting; the remaining columns ride along with the
row and play no role in either). -/
structure FaceRow where
  face_id : ℕ
  shape_quality : ℚ
  min_angle : ℚ
  deriving DecidableEq

/-- The key order of `bad_df.sort_values(by=["shape_quality", "min_angle"])`:
ascending shape quality, ties broken by ascending min angle. -/
def rowLe (r s : FaceRow) : Prop :=
  r.shape_quality < s.shape_quality ∨
    (r.shape_quality = s.shape_quality ∧ r.min_angle ≤ s.min_angle)

instance : DecidableRel rowLe := fun r s => by
  unfold rowLe
  infer_instance

instance : IsTotal FaceRow rowLe where
  total r s := by
    unfold rowLe
    rcases lt_trichotomy r.shape_quality s.shape_quality with h | h | h
    · exact Or.inl (Or.inl h)
    · rcases le_total r.min_angle s.min_angle with h2 | h2
      · exact Or.inl (Or.inr ⟨h, h2⟩)
      · exact Or.inr (Or.inr ⟨h.symm, h2⟩)
    · exact Or.inr (Or.inl h)

instance : IsTrans FaceRow rowLe where
  trans r s t hrs hst := by
    unfold rowLe at *
    rcases hrs with h1 | ⟨h1, h1a⟩ <;> rcases hst with h2 | ⟨h2, h2a⟩
    · exact Or.inl (h1.trans h2)
    · exact Or.inl (h2 ▸ h1)
    · exact Or.inl (h1 ▸ h2)
    · exact Or.inr ⟨h1.trans h2, h1a.trans h2a⟩

/-- The bad-faces export of `save_mesh_quality` (step 3): flag the rows with
the `isBad` mask, and when any are flagged, sort them by
`(shape_quality, min_angle)` ascending; `none` models the branch that writes
no file ("no bad faces under current thresholds"). -/
def badFacesTable (rows : List FaceRow) (sqThresh angleThresh : ℚ) :
    Option (List FaceRow) :=
  let bad := rows.filter fun r => isBad r.shape_quality r.min_angle sqThresh angleThresh
  if bad.isEmpty then none
  else some (List.insertionSort rowLe bad)

/-- C7: whenever the bad-triangle set is non-empty, the exported bad-faces
table holds exactly the flagged rows of the per-face table (as a
permutation), sorted ascending by shape quality and then by min angle. -/
theorem C7_bad_faces_sorted (rows : List FaceRow) (sqThresh angleThresh : ℚ)
    (hne : rows.filter
      (fun r => isBad r.shape_quality r.min_angle sqThresh angleThresh) ≠ []) :
    ∃ l : List FaceRow,
      badFacesTable rows sqThresh angleThresh = some l ∧
      l.Perm (rows.filter
        (fun r => isBad r.shape_quality r.min_angle sqThresh angleThresh)) ∧
      l.Sorted rowLe := by
  refine ⟨List.insertionSort rowLe (rows.filter
    (fun r => isBad r.shape_quality r.min_angle sqThresh angleThresh)), ?_, ?_, ?_⟩
  · unfold badFacesTable
    rw [if_neg (by simpa using hne)]
  · exact List.perm_insertionSort rowLe _
  · exact List.sorted_insertionSort rowLe _

theorem C7_bad_faces_sorted_witness :
    ∃ l : List FaceRow,
      badFacesTable [⟨0, 0, 5⟩, ⟨1, 2, 90⟩] 1 10 = some l ∧
      l.Perm (List.filter
        (fun r => isBad r.shape_quality r.min_angle 1 10) [⟨0, 0, 5⟩, ⟨1, 2, 90⟩]) ∧
      l.Sorted rowLe :=
  C7_bad_faces_sorted [⟨0, 0, 5⟩, ⟨1, 2, 90⟩] 1 10 (by decide)

/-- Index of the last '.' in a file-name component (`none` if there is no
dot), as used by pathlib's suffix handling. -/
def lastDotIdx : List Char → Option ℕ
  | [] => none
  | ch :: rest =>
    match lastDotIdx rest with
    | some i => some (i + 1)
    | none => if ch = '.' then some 0 else none

/-- pathlib's `Path.with_suffix("")` on the final path component: drop the
extension — everything from the last '.' on — provided that dot is neither
the first character nor the last one; otherwise the name is unchanged. -/
def withSuffixEmpty (name : List Char) : List Char :=
  match lastDotIdx name with
  | some i => if 0 < i ∧ i + 1 < name.length then name.take i else name
  | none => name

/-- `main.py` lines 146-149: when no output is given,
`args.output = input_path.with_suffix("").as_posix() + "_quality"`;
`with_suffix` touches only the final component, so the directory part is kept
unchanged. The path is modelled as (directory part, final component). -/
def defaultOutputName (dir name : List Char) : List Char × List Char :=
  (dir, withSuffixEmpty name ++ "_quality".toList)

/-- The default output location as the spec sentence words it: the input
FILENAME with the "_quality" suffix appended, same directory. -/
def specDefaultOutputName (dir name : List Char) : List Char × List Char :=
  (dir, name ++ "_quality".toList)

theorem lastDotIdx_of_no_dot {l : List Char} (h : '.' ∉ l) :
    lastDotIdx l = none := by
  induction l with
  | nil => rfl
  | cons ch rest ih =>
      simp only [List.mem_cons, not_or] at h
      simp [lastDotIdx, ih h.2, Ne.symm h.1]

theorem lastDotIdx_append_dot {e : List Char} (s : List Char) (he : '.' ∉ e) :
    lastDotIdx (s ++ '.' :: e) = some s.length := by
  induction s with
  | nil => simp [lastDotIdx, lastDotIdx_of_no_dot he]
  | cons ch rest ih => simp [lastDotIdx, ih]

/-- C8 as stated is false: for the FreeSurfer-style input name `lh.white`,
the code first strips the `.white` extension, so the default prefix is
`lh_quality`, not `lh.white_quality`. -/
theorem C8_counterexample :
    defaultOutputName [] "lh.white".toList ≠
      specDefaultOutputName [] "lh.white".toList := by
  decide

/-- C8 (amended): the default output prefix lives in the input's directory
and its final component is the input filename with its extension — the part
from the LAST dot on, when that dot is neither the first nor the last
character — removed and "_quality" appended. The four parts characterise
every filename: any name is either dot-free (kept whole), or splits uniquely
as `s ++ '.' :: e` with no dot in `e` (that dot being the last one, `s` free
to contain earlier dots): stripped to `s` when `s` and `e` are both
non-empty (so `lh.white.preaparc` becomes `lh.white_quality`), kept whole
when the last dot is the leading character (`.bashrc`) or the trailing
character (`name.`). -/
theorem C8_default_output :
    (∀ dir s e : List Char, s ≠ [] → e ≠ [] → '.' ∉ e →
      defaultOutputName dir (s ++ '.' :: e) = (dir, s ++ "_quality".toList)) ∧
    (∀ dir name : List Char, '.' ∉ name →
      defaultOutputName dir name = (dir, name ++ "_quality".toList)) ∧
    (∀ dir e : List Char, '.' ∉ e →
      defaultOutputName dir ('.' :: e) = (dir, ('.' :: e) ++ "_quality".toList)) ∧
    (∀ dir s : List Char,
      defaultOutputName dir (s ++ ['.']) =
        (dir, (s ++ ['.']) ++ "_quality".toList)) := by
  refine ⟨?_, ?_, ?_, ?_⟩
  · intro dir s e hs he hde
    unfold defaultOutputName withSuffixEmpty
    rw [lastDotIdx_append_dot s hde]
    have hcond : 0 < s.length ∧ s.length + 1 < (s ++ '.' :: e).length := by
      constructor
      · exact List.length_pos.mpr hs
      · have : 0 < e.length := List.length_pos.mpr he
        simp only [List.length_append, List.length_cons]
        omega
    show (dir,
        (if 0 < s.length ∧ s.length + 1 < (s ++ '.' :: e).length then
          List.take s.length (s ++ '.' :: e)
        else s ++ '.' :: e) ++ "_quality".toList) = (dir, s ++ "_quality".toList)
    rw [if_pos hcond, List.take_left]
  · intro dir name h
    unfold defaultOutputName withSuffixEmpty
    rw [lastDotIdx_of_no_dot h]
  · intro dir e he
    unfold defaultOutputName withSuffixEmpty
    rw [show ('.' :: e) = [] ++ '.' :: e from rfl, lastDotIdx_append_dot [] he]
    show (dir,
        (if 0 < (0 : ℕ) ∧ 0 + 1 < ([] ++ '.' :: e : List Char).length then
          List.take 0 ([] ++ '.' :: e)
        else [] ++ '.' :: e) ++ "_quality".toList) =
      (dir, ([] ++ '.' :: e : List Char) ++ "_quality".toList)
    rw [if_neg (by simp)]
  · intro dir s
    unfold defaultOutputName withSuffixEmpty
    rw [show s ++ ['.'] = s ++ '.' :: ([] : List Char) from rfl,
      lastDotIdx_append_dot s (by simp)]
    show (dir,
        (if 0 < s.length ∧ s.length + 1 < (s ++ '.' :: ([] : List Char)).length then
          List.take s.length (s ++ '.' :: ([] : List Char))
        else s ++ '.' :: ([] : List Char)) ++ "_quality".toList) =
      (dir, (s ++ '.' :: ([] : List Char)) ++ "_quality".toList)
    rw [if_neg (by simp)]

theorem C8_default_output_witness :
    defaultOutputName [] ("lh.white".toList ++ '.' :: "preaparc".toList) =
      ([], "lh.white".toList ++ "_quality".toList) :=
  C8_default_output.1 [] "lh.white".toList "preaparc".toList (by decide)
    (by decide) (by decide)

/-- Outcome of a run of `main.py`: a clean interpreter exit with a code, or
an uncaught Python exception (which is not a clean `sys.exit`). -/
inductive RunOutcome where
  | exitCode (n : ℕ)
  | uncaughtTypeError
  deriving DecidableEq

/-- `main()` from `main.py` (lines 137-159), input-validation control flow.
`parse_arguments` declares the `-i` (`--input_surf`) argument WITHOUT
`required=True`, so an
invocation without `-i` reaches `main` with `input_surf = None`, and
`os.path.isfile(None)` raises an uncaught `TypeError` (only `OSError` and
`ValueError` are swallowed by `isfile`). With an input path given: missing
file → print + `sys.exit(1)`; `read_freesurfer_surf` failure → print +
`sys.exit(1)`; otherwise the run completes and the interpreter exits 0. -/
def mainOutcome (input_surf : Option String) (isfile readOk : String → Bool) :
    RunOutcome :=
  match input_surf with
  | none => .uncaughtTypeError
  | some p =>
    if !isfile p then .exitCode 1
    else if !readOk p then .exitCode 1
    else .exitCode 0

/-- A stand-in concrete input path. -/
def inputPathEg : String := "lh.white"

/-- C9: evaluation of the modelled control flow. Omitting the input argument
is NOT rejected by the parser as the claim's "required" demands: the run ends
in an uncaught `TypeError`, not in a clean required-argument error. When an
input path is supplied, the exit codes are as the claim states: 1 when the
file is missing or unparseable, 0 otherwise. -/
theorem C9_input_not_required :
    mainOutcome none (fun _ => true) (fun _ => true) = .uncaughtTypeError ∧
    mainOutcome (some inputPathEg) (fun _ => false) (fun _ => true) = .exitCode 1 ∧
    mainOutcome (some inputPathEg) (fun _ => true) (fun _ => false) = .exitCode 1 ∧
    mainOutcome (some inputPathEg) (fun _ => true) (fun _ => true) = .exitCode 0 :=
  ⟨rfl, rfl, rfl, rfl⟩

end FsMeshQC
